import Mathlib

/-!
Shallow embedding of SimpleURemote 1.0 (src/SimpleURemote1.0.cpp): a single-slot
IR capture-and-replay controller.  The external IR library (IRremoteESP8266) is
modelled through its interface: `irrecv.decode` is sticky (once a message has
been decoded it keeps returning true until the receiver is re-armed), which we
model by the poll index at which a decode first becomes available; the transmit
engine and the LED/serial side effects are modelled as event traces.
-/

namespace SimpleURemote

/-- Protocol identifier of a decode result (`decode_type_t`): either the
explicit `UNKNOWN` value or some recognized protocol id. -/
inductive Protocol
  | unknown
  | proto (id : Nat)
deriving DecidableEq, Repr

/-- The fields of `decode_results` the sketch reads, plus the two accessor
views used for unrecognized protocols (`resultToRawArray` materializes the raw
timing sequence, `getCorrectedRawLength` its corrected element count). -/
structure DecodeResult where
  decode_type : Protocol
  bits : Nat
  value : Nat
  state : List Nat
  rawTimings : List Nat
  rawLen : Nat
deriving DecidableEq, Repr

/-- Indicator events: one `blinkled(pin, blink_delay, multiplier)` call, or a
direct `digitalWrite` of the LED line. -/
inductive LedEvent
  | blink (blink_delay : Nat) (multiplier : Nat)
  | setHigh
  | setLow
deriving DecidableEq, Repr

/-- Calls into the transmit engine: `irsend.sendRaw(timings, count, freqHz)`,
`irsend.send(protocol, state, byteLength)` (byte-sequence form), or
`irsend.send(protocol, value, bits)` (numeric form). -/
inductive TxCall
  | sendRaw (timings : List Nat) (count : Nat) (freqHz : Nat)
  | sendBytes (protocol : Protocol) (state : List Nat) (byteLength : Nat)
  | sendNum (protocol : Protocol) (value : Nat) (bits : Nat)
deriving DecidableEq, Repr

/-- Diagnostics channel lines printed by the sketch. -/
inductive SerialMsg
  | recording
  | waiting
  | gotResults
  | humanReadable (r : DecodeResult)
  | tooLong
  | sending
  | retransmitReport (success : Bool)
  | nothingToSend
deriving DecidableEq, Repr

/-- `kFrequency`: the fixed modulation frequency (Hz) for raw replays. -/
def kFrequency : Nat := 38000

/-- Receive-engine model: `arrival = some a` means a decode first becomes
available at poll attempt `a` of the current capture window (`none`: never).
`availAt arrival i` is what `irrecv.decode` returns at check `i` — sticky,
hence monotone in `i`, because the sketch never calls `irrecv.resume`. -/
def availAt (arrival : Option Nat) (i : Nat) : Bool :=
  match arrival with
  | none => false
  | some a => decide (a ≤ i)

/-- The capture wait loop `for (int i = 0; i < 20; i++)`: each iteration prints,
delays 500 ms and then checks `irrecv.decode`, breaking on success.  Returns
the list of times (ms since loop entry at time `t`) at which checks happened,
and the index of the attempt that broke the loop (`none`: budget exhausted). -/
def pollTrace (avail : Nat → Bool) : Nat → Nat → Nat → List Nat × Option Nat
  | _, _, 0 => ([], none)
  | i, t, fuel + 1 =>
    if avail i then ([t + 500], some i)
    else
      let r := pollTrace avail (i + 1) (t + 500) fuel
      ((t + 500) :: r.1, r.2)

/-- The break index of the capture wait loop, started at attempt 0, time 0,
with the 20-attempt budget. -/
def captureExit (arrival : Option Nat) : Option Nat :=
  (pollTrace (availAt arrival) 0 0 20).2

/-- The poll-time trace of the capture wait loop. -/
def capturePolls (arrival : Option Nat) : List Nat :=
  (pollTrace (availAt arrival) 0 0 20).1

/-- The post-loop `if (irrecv.decode(&results))` check.  It happens with no
intervening delay, so it reads the availability at the attempt index where the
loop exited (the spec treats the duplicated call as one semantic check). -/
def captureGot (arrival : Option Nat) : Bool :=
  availAt arrival (match captureExit arrival with | some i => i | none => 19)

/-- Outcome of one button-1 capture: the poll trace, the remembered slot after
the capture, and the indicator/diagnostics traces. -/
structure CaptureOut where
  polls : List Nat
  slotAfter : Option DecodeResult
  leds : List LedEvent
  serial : List SerialMsg
deriving Repr

/-- The button-1 handler: `irrecv.enableIRIn()` re-arms the receiver (wiping
any previous decode, so `prev` is dead), one opening blink then LED held high,
the bounded wait loop, then either the captured branch (5 fast blinks, result
printed) or the timeout branch (LED written low, nothing remembered). -/
def runCapture (arrival : Option Nat) (newSig : DecodeResult)
    (_prev : Option DecodeResult) : CaptureOut :=
  if captureGot arrival then
    { polls := capturePolls arrival
      slotAfter := some newSig
      leds := [.blink 500 1, .setHigh, .blink 50 5]
      serial := SerialMsg.recording ::
        ((capturePolls arrival).map fun _ => SerialMsg.waiting) ++
        [SerialMsg.gotResults, SerialMsg.humanReadable newSig] }
  else
    { polls := capturePolls arrival
      slotAfter := none
      leds := [.blink 500 1, .setHigh, .setLow]
      serial := SerialMsg.recording ::
        ((capturePolls arrival).map fun _ => SerialMsg.waiting) ++
        [SerialMsg.tooLong] }

/-- Outcome of one button-2 send request. -/
structure ReplayOut where
  leds : List LedEvent
  txCalls : List TxCall
  serial : List SerialMsg
  success : Bool
  slotAfter : Option DecodeResult
deriving Repr

/-- The button-2 handler.  `slot` is the remembered signal (what
`irrecv.decode(&results)` yields); `hasAC` is the library predicate
`hasACState`; `txOk` is the boolean the transmit engine returns when a
bool-returning `send` overload is invoked.  Mirrors lines 192-250 of the
sketch: 3 fast blinks, `success` initialized to true, then the three-way
dispatch on `decode_type`, then the status print. -/
def replay (hasAC : Protocol → Bool) (slot : Option DecodeResult)
    (txOk : Bool) : ReplayOut :=
  match slot with
  | some results =>
    let protocol := results.decode_type
    let size := results.bits
    if protocol = Protocol.unknown then
      let raw_array := results.rawTimings
      let size := results.rawLen
      { leds := [.blink 30 3]
        txCalls := [.sendRaw raw_array size kFrequency]
        serial := [.sending, .humanReadable results, .retransmitReport true]
        success := true
        slotAfter := some results }
    else if hasAC protocol then
      { leds := [.blink 30 3]
        txCalls := [.sendBytes protocol results.state (size / 8)]
        serial := [.sending, .humanReadable results, .retransmitReport txOk]
        success := txOk
        slotAfter := some results }
    else
      { leds := [.blink 30 3]
        txCalls := [.sendNum protocol results.value size]
        serial := [.sending, .humanReadable results, .retransmitReport txOk]
        success := txOk
        slotAfter := some results }
  | none =>
    { leds := [.blink 600 2]
      txCalls := []
      serial := [.nothingToSend]
      success := true
      slotAfter := none }

/-- A run of consecutive send requests with no intervening capture: each send
threads the slot it leaves behind into the next, and records its transmit
calls.  `oks` supplies the transmit engine's boolean result for each send. -/
def replaySeq (hasAC : Protocol → Bool) (slot : Option DecodeResult) :
    List Bool → List (List TxCall) × Option DecodeResult
  | [] => ([], slot)
  | ok :: rest =>
    let r := replay hasAC slot ok
    let t := replaySeq hasAC r.slotAfter rest
    (r.txCalls :: t.1, t.2)

/-- Button line level (`digitalRead` result). -/
inductive Level
  | low
  | high
deriving DecidableEq, Repr

/-- The release-edge test `(prev == LOW) && (cur == HIGH)` used for both
button channels. -/
def releaseEdge (prev cur : Level) : Bool :=
  decide (prev = Level.low) && decide (cur = Level.high)

/-- The sketch's persistent state across loop iterations: the two previous
button levels and the remembered slot. -/
structure LoopState where
  b1prev : Level
  b2prev : Level
  slot : Option DecodeResult
deriving Repr

/-- Environment of one loop iteration: the sampled button levels, the receive
engine's behavior during a capture window, the decode that would be stored on
success, and the transmit engine's boolean result. -/
structure LoopInput where
  b1 : Level
  b2 : Level
  arrival : Option Nat
  newSig : DecodeResult
  txOk : Bool

/-- Observable outcome of one loop iteration. -/
structure LoopOut where
  fired1 : Bool
  fired2 : Bool
  state : LoopState
  leds : List LedEvent
  txCalls : List TxCall
  serial : List SerialMsg
  polls : List Nat

/-- One iteration of `loop()`: sample both buttons, run the capture handler on
a button-1 release edge, run the replay handler on a button-2 release edge
(reading the slot the capture just left, as in the source), then overwrite
both previous levels unconditionally. -/
def loopIter (hasAC : Protocol → Bool) (s : LoopState) (inp : LoopInput) :
    LoopOut :=
  let fired1 := releaseEdge s.b1prev inp.b1
  let cap := runCapture inp.arrival inp.newSig s.slot
  let slot1 := if fired1 then cap.slotAfter else s.slot
  let fired2 := releaseEdge s.b2prev inp.b2
  let rep := replay hasAC slot1 inp.txOk
  { fired1 := fired1
    fired2 := fired2
    state := { b1prev := inp.b1, b2prev := inp.b2
               slot := if fired2 then rep.slotAfter else slot1 }
    leds := (if fired1 then cap.leds else []) ++ (if fired2 then rep.leds else [])
    txCalls := if fired2 then rep.txCalls else []
    serial := (if fired1 then cap.serial else []) ++ (if fired2 then rep.serial else [])
    polls := if fired1 then cap.polls else [] }

/-- The three dispatch branches of the replay handler. -/
inductive Branch
  | raw
  | stateful
  | stateless
deriving DecidableEq, Repr

/-- Guard of the raw branch: `protocol == decode_type_t::UNKNOWN`. -/
def guardRaw (r : DecodeResult) : Bool :=
  decide (r.decode_type = Protocol.unknown)

/-- Guard of the byte-sequence branch: not unknown and `hasACState(protocol)`. -/
def guardStateful (hasAC : Protocol → Bool) (r : DecodeResult) : Bool :=
  !(decide (r.decode_type = Protocol.unknown)) && hasAC r.decode_type

/-- Guard of the numeric branch: not unknown and not `hasACState(protocol)`. -/
def guardStateless (hasAC : Protocol → Bool) (r : DecodeResult) : Bool :=
  !(decide (r.decode_type = Protocol.unknown)) && !(hasAC r.decode_type)

/-- The branch the replay dispatch selects, read off the if-chain. -/
def branchOf (hasAC : Protocol → Bool) (r : DecodeResult) : Branch :=
  if r.decode_type = Protocol.unknown then Branch.raw
  else if hasAC r.decode_type then Branch.stateful
  else Branch.stateless

/-- The guard of a given branch. -/
def guardOfB (hasAC : Protocol → Bool) (r : DecodeResult) : Branch → Bool
  | Branch.raw => guardRaw r
  | Branch.stateful => guardStateful hasAC r
  | Branch.stateless => guardStateless hasAC r

/-- Which branch a transmit call belongs to. -/
def txBranch : TxCall → Branch
  | .sendRaw _ _ _ => Branch.raw
  | .sendBytes _ _ _ => Branch.stateful
  | .sendNum _ _ _ => Branch.stateless

/-- Sample decode with an unrecognized protocol (raw capture). -/
def sigRaw : DecodeResult :=
  { decode_type := Protocol.unknown, bits := 0, value := 0, state := []
    rawTimings := [900, 450, 560, 1690], rawLen := 4 }

/-- Sample decode with a stateful (AC-style) protocol. -/
def sigAC : DecodeResult :=
  { decode_type := Protocol.proto 5, bits := 16, value := 0, state := [7, 9]
    rawTimings := [], rawLen := 0 }

/-- Sample decode with a stateless simple protocol. -/
def sigNum : DecodeResult :=
  { decode_type := Protocol.proto 3, bits := 32, value := 3735928559, state := []
    rawTimings := [], rawLen := 0 }

theorem pollTrace_len_le (avail : Nat → Bool) :
    ∀ (fuel i t : Nat), (pollTrace avail i t fuel).1.length ≤ fuel := by
  intro fuel
  induction fuel with
  | zero => intro i t; simp [pollTrace]
  | succ n ih =>
    intro i t
    by_cases h : avail i
    · simp [pollTrace, h]
    · simpa [pollTrace, h, Nat.succ_le_succ_iff] using ih (i + 1) (t + 500)

theorem cadence_cons (t len : Nat) :
    (List.range (len + 1)).map (fun k => t + 500 * (k + 1)) =
      (t + 500) :: (List.range len).map (fun k => t + 500 + 500 * (k + 1)) := by
  rw [List.range_succ_eq_map, List.map_cons, List.map_map]
  refine List.cons_eq_cons.mpr ⟨by omega, ?_⟩
  apply List.map_congr_left
  intro k _
  simp only [Function.comp_apply, Nat.succ_eq_add_one]
  omega

theorem pollTrace_cadence (avail : Nat → Bool) :
    ∀ (fuel i t : Nat),
      (pollTrace avail i t fuel).1 =
        (List.range (pollTrace avail i t fuel).1.length).map
          (fun k => t + 500 * (k + 1)) := by
  intro fuel
  induction fuel with
  | zero => intro i t; simp [pollTrace]
  | succ n ih =>
    intro i t
    by_cases h : avail i
    · have hr1 : List.range 1 = [0] := rfl
      simp [pollTrace, h, hr1]
    · have ihr := ih (i + 1) (t + 500)
      simp only [pollTrace, h, Bool.false_eq_true, ite_false,
        List.length_cons]
      rw [cadence_cons]
      exact List.cons_eq_cons.mpr ⟨rfl, ihr⟩

theorem pollTrace_exit_of_never (avail : Nat → Bool)
    (h : ∀ k, avail k = false) :
    ∀ (fuel i t : Nat), (pollTrace avail i t fuel).2 = none ∧
      (pollTrace avail i t fuel).1.length = fuel := by
  intro fuel
  induction fuel with
  | zero => intro i t; simp [pollTrace]
  | succ n ih =>
    intro i t
    have hh := h i
    simpa [pollTrace, hh] using ih (i + 1) (t + 500)

theorem pollTrace_exit_availAt (a : Nat) :
    ∀ (fuel i t : Nat), i ≤ a →
      (pollTrace (availAt (some a)) i t fuel).2 =
        if a < i + fuel then some a else none := by
  intro fuel
  induction fuel with
  | zero =>
    intro i t hia
    have hni : ¬ a < i := by omega
    simp [pollTrace, hni]
  | succ n ih =>
    intro i t hia
    by_cases h : a ≤ i
    · have hai : a = i := Nat.le_antisymm h hia
      subst hai
      simp [pollTrace, availAt]
    · have hlt : i < a := Nat.lt_of_not_le h
      have hav : availAt (some a) i = false := by
        simp [availAt]; omega
      have ihr := ih (i + 1) (t + 500) hlt
      simp only [pollTrace, hav, Bool.false_eq_true, ite_false]
      rw [ihr]
      by_cases hb : a < i + 1 + n
      · rw [if_pos hb, if_pos (by omega)]
      · rw [if_neg hb, if_neg (by omega)]

theorem captureGot_iff (arrival : Option Nat) :
    captureGot arrival = true ↔ ∃ a, arrival = some a ∧ a < 20 := by
  cases arrival with
  | none =>
    have hx := pollTrace_exit_of_never (availAt none) (fun _ => rfl) 20 0 0
    simp [captureGot, captureExit, hx.1, availAt]
  | some a =>
    have hx := pollTrace_exit_availAt a 20 0 0 (Nat.zero_le a)
    by_cases h : a < 20
    · rw [Nat.zero_add] at hx
      rw [if_pos h] at hx
      simp [captureGot, captureExit, hx, availAt]
      omega
    · rw [Nat.zero_add] at hx
      rw [if_neg h] at hx
      simp [captureGot, captureExit, hx, availAt]
      omega

/-- C1: every button-1 capture polls the receive path at a fixed 500-time-unit
cadence for at most 20 attempts, and the remembered slot becomes non-Empty
exactly when a decode becomes available at some attempt index below 20;
exhausting the budget leaves the slot Empty. -/
theorem capture_poll_budget (arrival : Option Nat) (newSig : DecodeResult)
    (prev : Option DecodeResult) :
    (runCapture arrival newSig prev).polls.length ≤ 20 ∧
    (runCapture arrival newSig prev).polls =
      (List.range (runCapture arrival newSig prev).polls.length).map
        (fun k => 500 * (k + 1)) ∧
    ((runCapture arrival newSig prev).slotAfter = some newSig ↔
      ∃ a, arrival = some a ∧ a < 20) ∧
    ((runCapture arrival newSig prev).slotAfter = none ↔
      ∀ a, arrival = some a → 20 ≤ a) := by
  have hlen : (runCapture arrival newSig prev).polls.length ≤ 20 := by
    unfold runCapture
    by_cases h : captureGot arrival <;>
      simp [h, capturePolls, pollTrace_len_le]
  have hcad : (runCapture arrival newSig prev).polls =
      (List.range (runCapture arrival newSig prev).polls.length).map
        (fun k => 500 * (k + 1)) := by
    have hc := pollTrace_cadence (availAt arrival) 20 0 0
    unfold runCapture
    by_cases h : captureGot arrival <;>
      simpa [h, capturePolls] using hc
  refine ⟨hlen, hcad, ?_, ?_⟩
  · by_cases h : captureGot arrival
    · have hg := (captureGot_iff arrival).mp h
      simp [runCapture, h, hg]
    · have hg : ∀ a, arrival = some a → 20 ≤ a := by
        intro a ha
        by_contra hc
        exact h ((captureGot_iff arrival).mpr ⟨a, ha, by omega⟩)
      simp [runCapture, h]
      exact hg
  · by_cases h : captureGot arrival
    · have hg := (captureGot_iff arrival).mp h
      obtain ⟨a, ha, hlt⟩ := hg
      simp [runCapture, h]
      exact ⟨a, ha, by omega⟩
    · have hg : ¬ ∃ a, arrival = some a ∧ a < 20 := fun hc =>
        h ((captureGot_iff arrival).mpr hc)
      simp [runCapture, h]
      intro a ha
      by_contra hcon
      exact hg ⟨a, ha, by omega⟩

/-- C2: a capture that exhausts its attempt budget leaves the remembered slot
Empty — whatever was remembered before, including a previously captured
signal, is wiped — and the indicator trace ends with the LED written low, with
no closing blink after the listening phase. -/
theorem capture_timeout_wipes (arrival : Option Nat) (newSig : DecodeResult)
    (prev : Option DecodeResult)
    (h : ∀ a, arrival = some a → 20 ≤ a) :
    (runCapture arrival newSig prev).slotAfter = none ∧
    (runCapture arrival newSig prev).leds =
      [LedEvent.blink 500 1, LedEvent.setHigh, LedEvent.setLow] := by
  have hng : captureGot arrival = false := by
    rw [Bool.eq_false_iff]
    intro hg
    obtain ⟨a, ha, hlt⟩ := (captureGot_iff arrival).mp hg
    exact absurd (h a ha) (by omega)
  simp [runCapture, hng]

/-- Witness for C2 at a concrete input: no decode ever arrives while a raw
signal is already remembered; the slot is wiped and the LED goes low. -/
theorem capture_timeout_wipes_witness :
    (runCapture none sigNum (some sigRaw)).slotAfter = none ∧
    (runCapture none sigNum (some sigRaw)).leds =
      [LedEvent.blink 500 1, LedEvent.setHigh, LedEvent.setLow] :=
  capture_timeout_wipes none sigNum (some sigRaw) (fun a ha => by cases ha)

theorem replay_slotAfter (hasAC : Protocol → Bool) (slot : Option DecodeResult)
    (ok : Bool) : (replay hasAC slot ok).slotAfter = slot := by
  cases slot with
  | none => rfl
  | some r =>
    by_cases h1 : r.decode_type = Protocol.unknown
    · simp [replay, h1]
    · cases h2 : hasAC r.decode_type <;> simp [replay, h1, h2]

theorem replay_txCalls_ok (hasAC : Protocol → Bool) (slot : Option DecodeResult)
    (ok : Bool) : (replay hasAC slot ok).txCalls = (replay hasAC slot true).txCalls := by
  cases slot with
  | none => rfl
  | some r =>
    by_cases h1 : r.decode_type = Protocol.unknown
    · simp [replay, h1]
    · cases h2 : hasAC r.decode_type <;> simp [replay, h1, h2]

theorem replaySeq_spec (hasAC : Protocol → Bool) :
    ∀ (oks : List Bool) (slot : Option DecodeResult),
      (replaySeq hasAC slot oks).2 = slot ∧
      (replaySeq hasAC slot oks).1 =
        oks.map (fun _ => (replay hasAC slot true).txCalls) := by
  intro oks
  induction oks with
  | nil => intro slot; simp [replaySeq]
  | cons ok rest ih =>
    intro slot
    have hs := replay_slotAfter hasAC slot ok
    have hr := ih slot
    simp [replaySeq, hs, hr.1, hr.2, replay_txCalls_ok]

/-- C3: the replay controller never mutates the remembered slot, and any run
of consecutive send requests (no intervening capture) transmits the identical
calls on every send, whatever success values the transmit engine returns. -/
theorem replay_readonly_repeatable (hasAC : Protocol → Bool)
    (slot : Option DecodeResult) (oks : List Bool) (ok : Bool) :
    (replay hasAC slot ok).slotAfter = slot ∧
    (replaySeq hasAC slot oks).2 = slot ∧
    (replaySeq hasAC slot oks).1 =
      oks.map (fun _ => (replay hasAC slot true).txCalls) :=
  ⟨replay_slotAfter hasAC slot ok, (replaySeq_spec hasAC oks slot).1,
    (replaySeq_spec hasAC oks slot).2⟩

/-- C4: a send request with an Empty slot makes no transmit call at all, blinks
the slow two-pulse pattern, prints only the nothing-to-send line, and leaves
the slot Empty — a no-op with feedback, not an error path. -/
theorem send_empty_no_transmit (hasAC : Protocol → Bool) (ok : Bool) :
    (replay hasAC none ok).txCalls = [] ∧
    (replay hasAC none ok).leds = [LedEvent.blink 600 2] ∧
    (replay hasAC none ok).serial = [SerialMsg.nothingToSend] ∧
    (replay hasAC none ok).slotAfter = none :=
  ⟨rfl, rfl, rfl, rfl⟩

/-- C5: the three dispatch guards (unrecognized, stateful, stateless) are
exhaustive and mutually exclusive — exactly one holds for every decode result
— and the replay handler makes exactly one transmit call, belonging to the
branch whose guard holds. -/
theorem classification_exact_one_branch (hasAC : Protocol → Bool)
    (r : DecodeResult) (ok : Bool) :
    (guardRaw r).toNat + (guardStateful hasAC r).toNat +
      (guardStateless hasAC r).toNat = 1 ∧
    guardOfB hasAC r (branchOf hasAC r) = true ∧
    (replay hasAC (some r) ok).txCalls.map txBranch = [branchOf hasAC r] := by
  by_cases h1 : r.decode_type = Protocol.unknown
  · simp [guardRaw, guardStateful, guardStateless, guardOfB, branchOf, replay,
      txBranch, h1]
  · cases h2 : hasAC r.decode_type <;>
      simp [guardRaw, guardStateful, guardStateless, guardOfB, branchOf,
        replay, txBranch, h1, h2]

/-- C6: a send with an unrecognized-protocol (Raw) remembered signal invokes
the raw transmission path with exactly the stored corrected element count and
the fixed 38 kHz carrier frequency. -/
theorem send_raw_count_frequency (hasAC : Protocol → Bool) (r : DecodeResult)
    (ok : Bool) (h : r.decode_type = Protocol.unknown) :
    (replay hasAC (some r) ok).txCalls =
      [TxCall.sendRaw r.rawTimings r.rawLen kFrequency] ∧
    kFrequency = 38000 :=
  ⟨by simp [replay, h], rfl⟩

/-- Witness for C6 at a concrete raw signal. -/
theorem send_raw_count_frequency_witness :
    (replay (fun _ => false) (some sigRaw) true).txCalls =
      [TxCall.sendRaw sigRaw.rawTimings sigRaw.rawLen kFrequency] ∧
    kFrequency = 38000 :=
  send_raw_count_frequency (fun _ => false) sigRaw true rfl

/-- C7: a send with a Classified remembered signal dispatches on statefulness:
a stateful protocol goes to the byte-sequence path with payload length
bit-width/8, a stateless one to the numeric path with the stored value and
bit-width. -/
theorem send_classified_paths (hasAC : Protocol → Bool) (r : DecodeResult)
    (ok : Bool) (h : r.decode_type ≠ Protocol.unknown) :
    (hasAC r.decode_type = true →
      (replay hasAC (some r) ok).txCalls =
        [TxCall.sendBytes r.decode_type r.state (r.bits / 8)]) ∧
    (hasAC r.decode_type = false →
      (replay hasAC (some r) ok).txCalls =
        [TxCall.sendNum r.decode_type r.value r.bits]) := by
  constructor
  · intro h2; simp [replay, h, h2]
  · intro h2; simp [replay, h, h2]

/-- Witness for C7: a stateful send at a concrete AC-style signal and a
stateless send at a concrete numeric signal. -/
theorem send_classified_paths_witness :
    (replay (fun _ => true) (some sigAC) true).txCalls =
      [TxCall.sendBytes sigAC.decode_type sigAC.state (sigAC.bits / 8)] ∧
    (replay (fun _ => false) (some sigNum) true).txCalls =
      [TxCall.sendNum sigNum.decode_type sigNum.value sigNum.bits] :=
  ⟨(send_classified_paths (fun _ => true) sigAC true (by decide)).1 rfl,
   (send_classified_paths (fun _ => false) sigNum true (by decide)).2 rfl⟩

/-- C9: when the transmit engine reports failure, the slot is unchanged,
exactly one transmit call was made (no automatic retry), and the failure shows
up only on the diagnostics channel. -/
theorem transmit_failure_frame (hasAC : Protocol → Bool) (r : DecodeResult)
    (h : r.decode_type ≠ Protocol.unknown) :
    (replay hasAC (some r) false).slotAfter = some r ∧
    (replay hasAC (some r) false).txCalls.length = 1 ∧
    (replay hasAC (some r) false).success = false ∧
    (replay hasAC (some r) false).serial =
      [SerialMsg.sending, SerialMsg.humanReadable r,
       SerialMsg.retransmitReport false] := by
  cases h2 : hasAC r.decode_type <;> simp [replay, h, h2]

/-- Witness for C9 at a concrete stateful signal with a failing engine. -/
theorem transmit_failure_frame_witness :
    (replay (fun _ => true) (some sigAC) false).slotAfter = some sigAC ∧
    (replay (fun _ => true) (some sigAC) false).txCalls.length = 1 ∧
    (replay (fun _ => true) (some sigAC) false).success = false ∧
    (replay (fun _ => true) (some sigAC) false).serial =
      [SerialMsg.sending, SerialMsg.humanReadable sigAC,
       SerialMsg.retransmitReport false] :=
  transmit_failure_frame (fun _ => true) sigAC (by decide)

/-- C10: a raw replay is always reported successful on the diagnostics
channel — the success flag is initialized true and the raw path cannot clear
it, whatever the engine does. -/
theorem raw_send_reported_success (hasAC : Protocol → Bool) (r : DecodeResult)
    (ok : Bool) (h : r.decode_type = Protocol.unknown) :
    (replay hasAC (some r) ok).success = true ∧
    (replay hasAC (some r) ok).serial =
      [SerialMsg.sending, SerialMsg.humanReadable r,
       SerialMsg.retransmitReport true] := by
  simp [replay, h]

/-- Witness for C10 at a concrete raw signal, with the engine answering
false: the report still claims success. -/
theorem raw_send_reported_success_witness :
    (replay (fun _ => false) (some sigRaw) false).success = true ∧
    (replay (fun _ => false) (some sigRaw) false).serial =
      [SerialMsg.sending, SerialMsg.humanReadable sigRaw,
       SerialMsg.retransmitReport true] :=
  raw_send_reported_success (fun _ => false) sigRaw false rfl

/-- C8: in every loop iteration, each button channel fires exactly on its own
release edge (previous level pressed/LOW and current level released/HIGH) —
never on press and never while held — and both previous levels are overwritten
with the current levels regardless of whether anything fired. -/
theorem release_edge_and_prev_update (hasAC : Protocol → Bool)
    (s : LoopState) (inp : LoopInput) :
    ((loopIter hasAC s inp).fired1 = true ↔
      s.b1prev = Level.low ∧ inp.b1 = Level.high) ∧
    ((loopIter hasAC s inp).fired2 = true ↔
      s.b2prev = Level.low ∧ inp.b2 = Level.high) ∧
    (loopIter hasAC s inp).state.b1prev = inp.b1 ∧
    (loopIter hasAC s inp).state.b2prev = inp.b2 := by
  simp [loopIter, releaseEdge]

end SimpleURemote
